import Mathlib

/-!
Shallow embedding of the figure-skating score calculator
(`src/basevalues.js` and the main script `src/unnamed/part_000`).

Modelling conventions:
* JavaScript numbers are modelled as exact rationals (`ℚ`).  A value that is
  JavaScript `NaN` or `undefined` flowing through arithmetic is modelled as
  `none` in `JNum := Option ℚ`; every arithmetic operation propagates `none`
  the way JS arithmetic propagates `NaN` (`NaN + x = NaN`, `Math.max` with a
  `NaN` argument is `NaN`, `Math.round NaN = NaN`).
* Thrown JS exceptions are modelled with `Except String`.
* `Math.round x` rounds half toward `+∞`, i.e. `⌊x + 1/2⌋`.
* The reference table (the fetched SOV JSON) is modelled as an association
  list from element codes to a base value and a GOE-delta table.
-/

instance {α β : Type} [DecidableEq α] [DecidableEq β] : DecidableEq (Except α β) := fun
  | .ok a, .ok b =>
    if h : a = b then isTrue (h ▸ rfl) else isFalse (fun hh => by cases hh; exact h rfl)
  | .error a, .error b =>
    if h : a = b then isTrue (h ▸ rfl) else isFalse (fun hh => by cases hh; exact h rfl)
  | .ok _, .error _ => isFalse (fun hh => by cases hh)
  | .error _, .ok _ => isFalse (fun hh => by cases hh)

/-- JS number: `some q` is a finite number, `none` is `NaN` (or `undefined`
flowing into arithmetic, which behaves identically downstream here). -/
abbrev JNum := Option ℚ

/-- JS addition with NaN propagation. -/
def jadd : JNum → JNum → JNum
  | some a, some b => some (a + b)
  | _, _ => none

/-- JS multiplication with NaN propagation. -/
def jmul : JNum → JNum → JNum
  | some a, some b => some (a * b)
  | _, _ => none

/-- Binary `Math.max` with NaN propagation. -/
def jmax : JNum → JNum → JNum
  | some a, some b => some (max a b)
  | _, _ => none

/-- `Math.max(...list)` for a nonempty argument list.  (For the empty list JS
returns `-Infinity`, which has no rational counterpart; the scoring code only
reaches this with a nonempty list because an empty part list throws earlier.) -/
def jmaxList : List JNum → JNum
  | [] => none
  | [x] => x
  | x :: xs => jmax x (jmaxList xs)

/-- `Math.round`: round half toward positive infinity. -/
def jsRound (q : ℚ) : ℤ := Int.floor (q + 1/2)

/-- `Math.round(v * 100) / 100` (the source also writes it `* 1000 / 10`,
which is the same exact rational). -/
def round2 (q : ℚ) : ℚ := (jsRound (q * 100) : ℚ) / 100

/-- `round2` lifted to JS numbers (`Math.round NaN = NaN`). -/
def jround2 : JNum → JNum
  | some q => some (round2 q)
  | none => none

/-- One entry of the SOV JSON: a base value and the GOE-delta table
(`e.goe[String(goe)]`), keyed here directly by the integer GOE. -/
structure SOVEntry where
  base : ℚ
  goe : List (ℤ × ℚ)
deriving DecidableEq

/-- The loaded SOV JSON: `SOV.elements`, an element-code-keyed map. -/
structure SOVData where
  elements : List (String × SOVEntry)
deriving DecidableEq

/-- First-match association-list lookup (JS object property access). -/
def lookupEntry : List (String × SOVEntry) → String → Option SOVEntry
  | [], _ => none
  | (k, v) :: rest, c => if k = c then some v else lookupEntry rest c

/-- Lookup in a GOE-delta table (`e.goe[key]`, `undefined` when absent). -/
def lookupDelta : List (ℤ × ℚ) → ℤ → Option ℚ
  | [], _ => none
  | (k, v) :: rest, g => if k = g then some v else lookupDelta rest g

/-- `getBase` from `src/basevalues.js` lines 28-32: return the base value of a
known code, throw `Unknown element code` otherwise. -/
def getBase (sov : SOVData) (code : String) : Except String ℚ :=
  match lookupEntry sov.elements code with
  | some e => .ok e.base
  | none => .error ("Unknown element code: " ++ code)

/-- `getDelta` from `src/basevalues.js` lines 34-42: `0` for GOE `0` without
consulting the table, otherwise the table delta; throws on an unknown code or
a missing delta. -/
def getDelta (sov : SOVData) (code : String) (goe : ℤ) : Except String ℚ :=
  if goe = 0 then .ok 0
  else
    match lookupEntry sov.elements code with
    | none => .error ("Unknown element code: " ++ code)
    | some e =>
      match lookupDelta e.goe goe with
      | some d => .ok d
      | none => .error ("No GOE=" ++ toString goe ++ " for " ++ code)

/-- `getScore` from `src/basevalues.js` lines 44-47:
`Math.round((getBase(code) + getDelta(code, goe)) * 100) / 100`; `getBase` is
evaluated first, so its error wins. -/
def getScore (sov : SOVData) (code : String) (goe : ℤ) : Except String ℚ :=
  match getBase sov code with
  | .error m => .error m
  | .ok b =>
    match getDelta sov code goe with
    | .error m => .error m
    | .ok d => .ok (round2 (b + d))

/-- Value of a decimal digit string. -/
def digitsVal (cs : List Char) : ℕ :=
  cs.foldl (fun acc c => acc * 10 + (c.toNat - '0'.toNat)) 0

/-- JS `parseInt` restricted to the shapes fed to it by this program (an
optional leading minus sign followed by decimal digits; the maximal leading
digit run is taken, `NaN` — here `none` — when there is none). -/
def jsParseInt (s : String) : Option ℤ :=
  match s.data with
  | '-' :: rest =>
    let ds := rest.takeWhile Char.isDigit
    if ds.isEmpty then none else some (-(digitsVal ds : ℤ))
  | cs =>
    let ds := cs.takeWhile Char.isDigit
    if ds.isEmpty then none else some ((digitsVal ds : ℤ))

/-- A JS value produced by the `basevalues` Proxy adapter: a number or
`undefined`. -/
inductive JSVal where
  | num (q : ℚ)
  | undefined
deriving DecidableEq

/-- `undefined` entering arithmetic becomes `NaN`. -/
def JSVal.toJNum : JSVal → JNum
  | .num q => some q
  | .undefined => none

/-- The jump props handled by the adapter (`basevalues.js` line 75). -/
def jumpNames : List String := ["A", "T", "S", "Lo", "F", "Lz", "Eu"]

/-- The spin/step props handled by the adapter (`basevalues.js` line 117). -/
def spinNames : List String := ["StSq", "USp", "LSp", "CSp", "SSp", "CoSp"]

/-- Jump-array indexing in the adapter (`basevalues.js` lines 76-96):
`parseInt` the index, `undefined` for `NaN` or negative, `0.0` for rotation
`0`, otherwise `getBase` of `rotation ++ prop` with errors caught to
`undefined`. -/
def jumpIndex (sov : SOVData) (prop : String) (index : String) : JSVal :=
  match jsParseInt index with
  | none => .undefined
  | some r =>
    if r < 0 then .undefined
    else if r = 0 then .num 0
    else
      match getBase sov (toString r ++ prop) with
      | .ok b => .num b
      | .error _ => .undefined

/-- `ChSq` indexing in the adapter (`basevalues.js` lines 100-114): index
`"0"` gives `0.0`, index `"1"` gives `getBase "ChSq1"` with a `3.0` fallback
on error, anything else is `undefined`. -/
def chsqIndex (sov : SOVData) (index : String) : JSVal :=
  if index = "0" then .num 0
  else if index = "1" then
    match getBase sov "ChSq1" with
    | .ok b => .num b
    | .error _ => .num 3
  else .undefined

/-- The `F`/`C`-modifier analysis of a spin level string in the adapter
(`basevalues.js` lines 126-134 and the shared `getBase` fallback): a leading
`F`/`C` on a non-`StSq` prop is split off as a modifier (with `"0"` after it
again giving `0.0`); `getBase` of the built code falls back to `0.0` on
error. -/
def spinIndexFC (sov : SOVData) (prop level : String) : List Char → JSVal
  | c :: rest =>
    if c = 'F' ∨ c = 'C' then
      if rest = ['0'] then .num 0
      else
        match getBase sov (String.mk [c] ++ prop ++ String.mk rest) with
        | .ok b => .num b
        | .error _ => .num 0
    else
      match getBase sov (prop ++ level) with
      | .ok b => .num b
      | .error _ => .num 0
  | [] =>
    match getBase sov (prop ++ level) with
    | .ok b => .num b
    | .error _ => .num 0

/-- Spin/step indexing in the adapter (`basevalues.js` lines 117-145), the
level-`"0"` and `StSq` cases; the `F`/`C`-modifier analysis of the level
string is `spinIndexFC` above. -/
def spinIndex (sov : SOVData) (prop : String) (level : String) : JSVal :=
  if level = "0" then .num 0
  else if prop = "StSq" then
    match getBase sov (prop ++ level) with
    | .ok b => .num b
    | .error _ => .num 0
  else spinIndexFC sov prop level level.data

/-- The full adapter access `basevalues[name][idx]` (`basevalues.js` lines
68-149).  A `name` outside the handled props (including JS `null`, modelled
as `none`) makes the Proxy `get` return `undefined`, so the subsequent
indexing throws a `TypeError` — modelled as `.error`. -/
def basevaluesIndex (sov : SOVData) : Option String → String → Except String JSVal
  | none, _ => .error "TypeError: cannot read properties of undefined"
  | some nm, idx =>
    if nm ∈ jumpNames then .ok (jumpIndex sov nm idx)
    else if nm = "ChSq" then .ok (chsqIndex sov idx)
    else if nm ∈ spinNames then .ok (spinIndex sov nm idx)
    else .error "TypeError: cannot read properties of undefined"

/-- One element part of the entry buffer — the record pushed in the main
script (`src/unnamed/part_000` lines 4-23).  `type` and `name` are nullable
strings; `goe` and `bonus` physically exist only on the first part in the
source (the `addJump` record omits them), but only index 0's are ever read,
so carrying defaulted fields on every part is behaviour-preserving. -/
structure ElemPart where
  type : Option String
  name : Option String
  lod : String
  ur : Bool
  dg : Bool
  edge : Bool
  rep : Bool
  spinV : Bool
  fly : Bool
  cof : Bool
  bonus : Bool
  invalid : Bool
  goe : ℤ
  bv : JNum
  goeValue : JNum
  bvForGOECalculation : JNum
  bvForScoreCalculation : JNum
  elemScore : JNum
deriving DecidableEq

/-- The base-value lookup for one part, shared verbatim by `calculateBuffer`
(`part_000` lines 585-609) and `computeElementResult` (lines 760-780).  (The
only textual difference between the two source copies is `parseInt(lod) !=
"0"` versus `lodInt !== 0`; both coerce to the same numeric comparison, with
`NaN` unequal to `0` in each.)  A downgraded jump with nonzero rotation is
looked up at `rotation - 1`; an unparseable `lod` makes that index the string
`"NaN"`, exactly as JS stringifies `NaN - 1`. -/
def partBV (sov : SOVData) (p : ElemPart) : Except String JNum :=
  if p.invalid then .ok (some 0)
  else if p.type = some "jump" then
    if p.dg ∧ jsParseInt p.lod ≠ some 0 then
      (basevaluesIndex sov p.name
        (match jsParseInt p.lod with
         | some n => toString (n - 1)
         | none => "NaN")).map JSVal.toJNum
    else (basevaluesIndex sov p.name p.lod).map JSVal.toJNum
  else if p.type = some "seq" then
    (basevaluesIndex sov p.name p.lod).map JSVal.toJNum
  else
    if p.cof then (basevaluesIndex sov p.name ("C" ++ p.lod)).map JSVal.toJNum
    else if p.fly then (basevaluesIndex sov p.name ("F" ++ p.lod)).map JSVal.toJNum
    else (basevaluesIndex sov p.name p.lod).map JSVal.toJNum

/-- The score-side multipliers applied to a part's base value
(`part_000` lines 612-627 and 783-788): bonus on the first part `×1.1`,
repetition `×0.7`, then under-rotation and edge together `×0.6`, else spin-V
`×0.75`, else under-rotation or edge `×0.8`. -/
def partBVForScore (bonus0 : Bool) (p : ElemPart) (bv : JNum) : JNum :=
  let v1 := if bonus0 then jmul bv (some (11/10)) else bv
  let v2 := if p.rep then jmul v1 (some (7/10)) else v1
  if p.ur && p.edge then jmul v2 (some (3/5))
  else if p.spinV then jmul v2 (some (3/4))
  else if p.ur || p.edge then jmul v2 (some (4/5))
  else v2

/-- The GOE-side adjusted base value of a part, rounded to two decimals
(`part_000` lines 631-649 and 792-800): for non-`ChSq` parts the
`0.6`/`0.75`/`0.8` coefficients, for `ChSq` the raw base value. -/
def partBVForGOE (p : ElemPart) (bv : JNum) : JNum :=
  jround2 (if p.name ≠ some "ChSq" then
    if p.ur && p.edge then jmul bv (some (3/5))
    else if p.spinV then jmul bv (some (3/4))
    else if p.ur || p.edge then jmul bv (some (4/5))
    else bv
  else bv)

/-- The result row computed by `computeElementResult`
(`part_000` lines 815-817). -/
structure CeResult where
  totalBV : JNum
  goe : ℤ
  goeValue : JNum
  totalScore : JNum
deriving DecidableEq

/-- The per-part loop of `computeElementResult` (`part_000` lines 759-802),
rendered as structural recursion: it yields the sum of the score-side values
and the list of rounded GOE-side values.  (The source accumulates the sum
left-to-right; `jadd` is associative and commutative with `NaN` absorbing,
so the right-nested sum here is the same value.)  The first thrown lookup
error aborts the loop, as in JS. -/
def ceLoop (sov : SOVData) (bonus0 : Bool) : List ElemPart → Except String (JNum × List JNum)
  | [] => .ok (some 0, [])
  | p :: rest =>
    match partBV sov p with
    | .error e => .error e
    | .ok bv =>
      match ceLoop sov bonus0 rest with
      | .error e => .error e
      | .ok (s, l) =>
        .ok (jadd (partBVForScore bonus0 p bv) s, partBVForGOE p bv :: l)

/-- `computeElementResult` (`part_000` lines 755-818): works on a deep copy
of its argument, loops over the parts, then computes the GOE value (`goe *
0.5` when the first part is `ChSq`, otherwise `max(bvForGOEList) * goe * 0.1`
when `goe ≠ 0`) and the rounded totals.  An empty parts list throws at
`local[0].goe`. -/
def computeElementResult (sov : SOVData) : List ElemPart → Except String CeResult
  | [] => .error "TypeError: cannot read properties of undefined"
  | p0 :: rest =>
    match ceLoop sov p0.bonus (p0 :: rest) with
    | .error e => .error e
    | .ok (sum, goeList) =>
      let goe := p0.goe
      let gvRaw : JNum :=
        if p0.name = some "ChSq" then some ((goe : ℚ) * (1/2))
        else if goe ≠ 0 then jmul (jmaxList goeList) (some ((goe : ℚ) * (1/10)))
        else some 0
      let goeValue := jround2 gvRaw
      .ok { totalBV := jround2 sum, goe := goe, goeValue := goeValue,
            totalScore := jround2 (jadd sum goeValue) }

/-- Replace the head of a list, if any (an assignment to `buffer[0]`). -/
def updateHead (f : ElemPart → ElemPart) : List ElemPart → List ElemPart
  | [] => []
  | p :: ps => f p :: ps

/-- The per-part loop of `calculateBuffer` (`part_000` lines 584-654): each
`buffer[i]` receives its `bv`, `bvForScoreCalculation` and (rounded)
`bvForGOECalculation`; the returned list of GOE-side values is pushed in
order, and the flag records whether any part is named `ChSq` (each such part
assigns `buffer[0].goeValue = goe * 0.5`, the same value every time). -/
def cbLoop (sov : SOVData) (bonus0 : Bool) :
    List ElemPart → Except String (List ElemPart × List JNum × Bool)
  | [] => .ok ([], [], false)
  | p :: rest =>
    match partBV sov p with
    | .error e => .error e
    | .ok bv =>
      match cbLoop sov bonus0 rest with
      | .error e => .error e
      | .ok (ps, l, ch) =>
        .ok ({ p with bv := bv,
                      bvForScoreCalculation := partBVForScore bonus0 p bv,
                      bvForGOECalculation := partBVForGOE p bv } :: ps,
             partBVForGOE p bv :: l,
             if p.name = some "ChSq" then true else ch)

/-- `calculateBuffer` (`part_000` lines 582-663), as a function from the
buffer to the mutated buffer.  `bufferBV` starts as `[0.0]`, hence the
`some 0 ::` prefix before `Math.max`.  After the loop, when the first part is
not `ChSq`: the max formula overwrites `goeValue` if `goe ≠ 0`, and the
rounding applies to whatever `goeValue` currently holds — the in-loop
`goe * 0.5` if some part was a `ChSq`, else the *pre-existing* field value.
When the first part is `ChSq`, the in-loop `goe * 0.5` is left unrounded.
An empty buffer throws at `buffer[0].name`. -/
def calculateBuffer (sov : SOVData) : List ElemPart → Except String (List ElemPart)
  | [] => .error "TypeError: cannot read properties of undefined"
  | p0 :: rest =>
    match cbLoop sov p0.bonus (p0 :: rest) with
    | .error e => .error e
    | .ok (ps, l, anyChSq) =>
      let gv0 : JNum := if anyChSq then some ((p0.goe : ℚ) * (1/2)) else p0.goeValue
      let gv1 : JNum :=
        if p0.name ≠ some "ChSq" then
          jround2 (if p0.goe ≠ 0 then
            jmul (jmaxList (some 0 :: l)) (some ((p0.goe : ℚ) * (1/10)))
          else gv0)
        else gv0
      .ok (updateHead (fun q => { q with goeValue := gv1 }) ps)

/-- The row totals read off the mutated buffer by `appendToTable`
(`part_000` lines 668-690): the sum of the parts' `bvForScoreCalculation`,
the first part's `goe` and `goeValue`, and their rounded display values.  An
empty buffer throws at `buffer[0].goeValue`. -/
def appendToTableRow : List ElemPart → Except String CeResult
  | [] => .error "TypeError: cannot read properties of undefined"
  | p0 :: rest =>
    let totalBV := (p0 :: rest).foldl (fun acc p => jadd acc p.bvForScoreCalculation) (some 0)
    let totalScore := jadd totalBV p0.goeValue
    .ok { totalBV := jround2 totalBV, goe := p0.goe,
          goeValue := jround2 p0.goeValue, totalScore := jround2 totalScore }

/-- The mutating pipeline: `calculateBuffer`, then the `appendToTable`
row totals over the mutated buffer. -/
def calculateThenAppend (sov : SOVData) (buffer : List ElemPart) : Except String CeResult :=
  match calculateBuffer sov buffer with
  | .error e => .error e
  | .ok b => appendToTableRow b

/-- `updateSS` (`part_000` lines 176-188), reduced to its effect on the
module-level `pcs` array: an input above `10` stores the clamped `10.0` into
`pcs[0]`, otherwise the parsed input. -/
def updateSS (v : ℚ) (pcs : List ℚ) : List ℚ :=
  if 10 < v then pcs.set 0 10 else pcs.set 0 v

/-- `updateTR` (`part_000` lines 190-202): clamps `pcs[1]` at `10.0`. -/
def updateTR (v : ℚ) (pcs : List ℚ) : List ℚ :=
  if 10 < v then pcs.set 1 10 else pcs.set 1 v

/-- `updatePR` (`part_000` lines 204-216): clamps `pcs[2]` at `10.0`. -/
def updatePR (v : ℚ) (pcs : List ℚ) : List ℚ :=
  if 10 < v then pcs.set 2 10 else pcs.set 2 v

/-- `updateCO` (`part_000` lines 218-230).  In the overflow branch the box
and slider are set to `10.0`, but the stored value is
`pcs[3] = parseFloat(this.value)` — the raw input, not the clamp. -/
def updateCO (v : ℚ) (pcs : List ℚ) : List ℚ :=
  if 10 < v then pcs.set 3 v else pcs.set 3 v

/-- `updateIN` (`part_000` lines 232-244): clamps `pcs[4]` at `10.0`. -/
def updateIN (v : ℚ) (pcs : List ℚ) : List ℚ :=
  if 10 < v then pcs.set 4 10 else pcs.set 4 v

/-- The module-level mutable state of the main script (`part_000` lines
4-37) that a scoring call could conceivably touch. -/
structure GlobalState where
  buffer : List ElemPart
  elements : List (List ElemPart)
  tes : ℚ
  pcs : List ℚ
  tss : ℚ
deriving DecidableEq

/-- `computeElementResult` threaded through the module state: the source
(`part_000` lines 755-818) deep-copies its argument on entry and references
only that copy and the `basevalues` adapter — it reads and writes none of
`buffer`, `elements`, `tes`, `pcs`, `tss` — so the state passes through
unchanged. -/
def computeElementResultS (sov : SOVData) (st : GlobalState) (parts : List ElemPart) :
    Except String CeResult × GlobalState :=
  (computeElementResult sov parts, st)

/-- The initial buffer entry (`part_000` lines 4-23), also pushed afresh by
`clearEntry` (lines 520-541). -/
def initialPart : ElemPart :=
  { type := none, name := none, lod := "0", ur := false, dg := false,
    edge := false, rep := false, spinV := false, fly := false, cof := false,
    bonus := false, invalid := false, goe := 0, bv := some 0,
    goeValue := some 0, bvForGOECalculation := some 0,
    bvForScoreCalculation := some 0, elemScore := some 0 }

/-- The record pushed by `addJump` (`part_000` lines 418-440).  The source
record omits `bonus` and `goe` (they are only ever read on `buffer[0]`,
which `addJump` never creates); the defaults `false`/`0` here are
behaviour-preserving. -/
def addJumpPart : ElemPart :=
  { type := none, name := none, lod := "0", ur := false, dg := false,
    edge := false, rep := false, spinV := false, fly := false, cof := false,
    bonus := false, invalid := false, goe := 0, bv := some 0,
    goeValue := some 0, bvForGOECalculation := some 0,
    bvForScoreCalculation := some 0, elemScore := some 0 }

/-- The entry-editing state of the main script: the working buffer, the
added rows, and the row index being edited (`null` when adding). -/
structure AppModel where
  buffer : List ElemPart
  elements : List (List ElemPart)
  editingIndex : Option ℕ
deriving DecidableEq

/-- The state right after `initApp`: the initial one-part buffer, no rows. -/
def initModel : AppModel := ⟨[initialPart], [], none⟩

/-- Modelled from the spec: the labels of the `.setGOE` buttons live in the
repository's HTML page, which is not among the provided sources; per the
spec's data model ("a GOE integer in [-5, 5]") they are the integers from
`-5` to `5`. -/
def goeButtonValues : List ℤ := [-5, -4, -3, -2, -1, 0, 1, 2, 3, 4, 5]

/-- The entry-creating and entry-updating operations of the main script:
`setGOE` (`part_000` lines 413-416, writes `buffer[0].goe`), `clearEntry`
(lines 520-564), `addJump` (lines 418-440), `addElement` (lines 566-580,
snapshots the buffer into `elements` — replacing the edited row when
`editingIndex` is set — then runs `clearEntry`), and `onEditRow` (lines
711-724, deep-copies a stored row back into the buffer). -/
inductive Step : AppModel → AppModel → Prop
  | setGOE (m : AppModel) (g : ℤ) (hg : g ∈ goeButtonValues) :
      Step m { m with buffer := updateHead (fun p => { p with goe := g }) m.buffer }
  | clearEntry (m : AppModel) :
      Step m { m with buffer := [initialPart], editingIndex := none }
  | addJump (m : AppModel) :
      Step m { m with buffer := m.buffer ++ [addJumpPart] }
  | addElement (m : AppModel) :
      Step m { buffer := [initialPart],
               elements := match m.editingIndex with
                 | some i => m.elements.set i m.buffer
                 | none => m.elements ++ [m.buffer],
               editingIndex := none }
  | editRow (m : AppModel) (i : ℕ) (hi : i < m.elements.length) :
      Step m { m with buffer := m.elements.get ⟨i, hi⟩, editingIndex := some i }

/-- States reachable from the initial state through the entry operations. -/
inductive Reachable : AppModel → Prop
  | init : Reachable initModel
  | step {m m' : AppModel} : Reachable m → Step m m' → Reachable m'

/-- The spec's GOE invariant for one part record. -/
def goeOK (p : ElemPart) : Prop := -5 ≤ p.goe ∧ p.goe ≤ 5

/-- The spec's GOE invariant over the whole editing state: every part of the
working buffer and of every stored row. -/
def modelGOEOK (m : AppModel) : Prop :=
  (∀ p ∈ m.buffer, goeOK p) ∧ ∀ row ∈ m.elements, ∀ p ∈ row, goeOK p

/-- A small concrete SOV table used by the witnesses below (real 2025-26
values for the toe loop and the choreographic sequence). -/
def wSov : SOVData :=
  ⟨[("1T", ⟨2/5, [(1, 1/10), (-1, -(1/10))]⟩),
    ("2T", ⟨13/10, [(1, 13/100), (-1, -(13/100))]⟩),
    ("ChSq1", ⟨3, [(1, 1/2)]⟩),
    ("CoSp3", ⟨5/2, [(1, 1/4)]⟩),
    ("CCoSp3", ⟨3, [(1, 3/10)]⟩)]⟩

lemma round2_zero : round2 0 = 0 := by
  have h : ((0 : ℚ) * 100 + 1/2) = 1/2 := by norm_num
  simp only [round2, jsRound, h]
  norm_num

/-- C5: for a code present in the loaded table, `getBase` returns exactly the
recorded base value, and `getScore` returns that base value plus the GOE
delta, rounded to two decimals. -/
theorem C5_known_code_lookup (sov : SOVData) (c : String) (e : SOVEntry)
    (hc : lookupEntry sov.elements c = some e) :
    getBase sov c = .ok e.base ∧
    ∀ g d, getDelta sov c g = .ok d → getScore sov c g = .ok (round2 (e.base + d)) := by
  constructor
  · simp [getBase, hc]
  · intro g d hd
    simp [getScore, getBase, hc, hd]

/-- Witness for C5 at the concrete table `wSov` and code `2T`. -/
theorem C5_witness :
    getBase wSov "2T" = .ok (13/10) ∧
    getScore wSov "2T" 1 = .ok (round2 (13/10 + 13/100)) := by
  have h := C5_known_code_lookup wSov "2T"
    ⟨13/10, [(1, 13/100), (-1, -(13/100))]⟩ (by simp [wSov, lookupEntry])
  exact ⟨h.1, h.2 1 (13/100) (by simp [getDelta, wSov, lookupEntry, lookupDelta])⟩

/-- C6: `getDelta` returns `0` for GOE `0` for every code and every table —
including codes absent from the table — without throwing. -/
theorem C6_zero_goe_delta (sov : SOVData) (c : String) : getDelta sov c 0 = .ok 0 := by
  simp [getDelta]

/-- C8 (code bug): `updateCO` does not clamp.  On input `12` (which exceeds
`10`) it stores the raw `12` into `pcs[3]`, unlike its four siblings —
e.g. `updateSS` stores the clamp `10` — even though its own overflow branch
resets the input box and slider to `10.0`. -/
theorem C8_updateCO_overflow_bug :
    updateCO 12 [0, 0, 0, 0, 0] = [0, 0, 0, 12, 0] ∧
    updateSS 12 [0, 0, 0, 0, 0] = [10, 0, 0, 0, 0] ∧
    ¬ ((12 : ℚ) ≤ 10) := by
  refine ⟨?_, ?_, by norm_num⟩
  · simp [updateCO]
  · norm_num [updateSS]

/-- C9: a part flagged invalid gets base value `0.0` regardless of type,
name, level or other modifiers; the score-side multipliers applied to `0`
still give `0`, and the rounded GOE-side value is `0`, so the part
contributes `0` to the total base value and pushes `0` onto the
GOE-calculation list. -/
theorem C9_invalid_part_zero (sov : SOVData) (p : ElemPart) (bonus0 : Bool)
    (h : p.invalid = true) :
    partBV sov p = .ok (some 0) ∧
    partBVForScore bonus0 p (some 0) = some 0 ∧
    partBVForGOE p (some 0) = some 0 := by
  refine ⟨by simp [partBV, h], ?_, ?_⟩
  · unfold partBVForScore
    cases bonus0 <;> cases hr : p.rep <;> cases hu : p.ur <;> cases he : p.edge <;>
      cases hs : p.spinV <;> simp [jmul]
  · unfold partBVForGOE
    by_cases hn : p.name = some "ChSq" <;>
      cases hu : p.ur <;> cases he : p.edge <;> cases hs : p.spinV <;>
      simp [hn, jmul, jround2, round2_zero]

/-- Witness for C9 at a concrete invalid jump part. -/
theorem C9_witness :
    partBV wSov { initialPart with type := some "jump", name := some "T",
                                   lod := "2", invalid := true } = .ok (some 0) := by
  exact (C9_invalid_part_zero wSov _ false rfl).1

/-- C10: `computeElementResult` is pure — threaded through the module state
it leaves `buffer`, `elements`, `tes`, `pcs`, `tss` untouched, and its
result depends only on its parts argument and the loaded table, so two
calls over equal inputs agree. -/
theorem C10_compute_pure (sov : SOVData) (st : GlobalState) (parts : List ElemPart) :
    (computeElementResultS sov st parts).2 = st ∧
    ∀ st' : GlobalState,
      (computeElementResultS sov st' parts).1 = (computeElementResultS sov st parts).1 := by
  exact ⟨rfl, fun _ => rfl⟩

/-- A table with no entries: every code is unknown. -/
def emptySOV : SOVData := ⟨[]⟩

/-- Counterexample to C3 as stated: over a table in which every code is
unknown, the base-value lookups made through the `basevalues` adapter do
not throw.  The jump access `basevalues["T"]["2"]` yields `undefined`, the
spin access yields the `0.0` fallback, the `ChSq` access yields the `3.0`
fallback, and `computeElementResult` on such a jump part returns a NaN row
instead of propagating an error. -/
theorem C3_counterexample :
    basevaluesIndex emptySOV (some "T") "2" = .ok JSVal.undefined ∧
    spinIndex emptySOV "USp" "3" = JSVal.num 0 ∧
    chsqIndex emptySOV "1" = JSVal.num 3 ∧
    computeElementResult emptySOV
      [{ initialPart with type := some "jump", name := some "T", lod := "2" }] =
      .ok { totalBV := none, goe := 0, goeValue := some 0, totalScore := none } := by
  have hp : jsParseInt "2" = some 2 := by decide
  refine ⟨?_, ?_, ?_, ?_⟩
  · simp [basevaluesIndex, jumpNames, jumpIndex, hp, getBase, emptySOV, lookupEntry]
  · rfl
  · simp [chsqIndex, getBase, emptySOV, lookupEntry]
  · simp [computeElementResult, ceLoop, partBV, partBVForScore, partBVForGOE,
          basevaluesIndex, jumpNames, jumpIndex, hp, getBase, emptySOV,
          lookupEntry, initialPart, jadd, jmul, jround2, jmaxList, JSVal.toJNum,
          round2_zero, Except.map]

/-- C3 amended: for a code absent from the loaded table, `getBase` throws
and `getDelta` throws for every nonzero GOE; but the base-value lookups made
through the `basevalues` adapter do not throw — an unknown jump code yields
`undefined`, an unknown spin/step code yields the `0.0` fallback, and a
missing `ChSq1` yields the `3.0` fallback. -/
theorem C3_amended_lookup_errors (sov : SOVData) (c : String)
    (hc : lookupEntry sov.elements c = none) :
    getBase sov c = .error ("Unknown element code: " ++ c) ∧
    (∀ g : ℤ, g ≠ 0 → getDelta sov c g = .error ("Unknown element code: " ++ c)) ∧
    (∀ nm s n, nm ∈ jumpNames → jsParseInt s = some n → 0 < n →
      lookupEntry sov.elements (toString n ++ nm) = none →
      jumpIndex sov nm s = JSVal.undefined) ∧
    (∀ nm lv ch rest, nm ∈ spinNames → nm ≠ "StSq" → lv ≠ "0" →
      lv.data = ch :: rest → ch ≠ 'F' → ch ≠ 'C' →
      lookupEntry sov.elements (nm ++ lv) = none →
      spinIndex sov nm lv = JSVal.num 0) ∧
    (∀ lv, lv ≠ "0" → lookupEntry sov.elements ("StSq" ++ lv) = none →
      spinIndex sov "StSq" lv = JSVal.num 0) ∧
    (∀ nm lv ch rest, nm ∈ spinNames → nm ≠ "StSq" → lv ≠ "0" →
      lv.data = ch :: rest → (ch = 'F' ∨ ch = 'C') → rest ≠ ['0'] →
      lookupEntry sov.elements (String.mk [ch] ++ nm ++ String.mk rest) = none →
      spinIndex sov nm lv = JSVal.num 0) ∧
    (lookupEntry sov.elements "ChSq1" = none → chsqIndex sov "1" = JSVal.num 3) := by
  refine ⟨by simp [getBase, hc], fun g hg => by simp [getDelta, hg, hc], ?_, ?_, ?_, ?_, ?_⟩
  · intro nm s n _ hs hn hl
    simp only [jumpIndex, hs]
    rw [if_neg (by omega), if_neg (by omega)]
    simp [getBase, hl]
  · intro nm lv ch rest _ hnS hlv hdata hF hC hl
    simp only [spinIndex]
    rw [if_neg hlv, if_neg hnS, hdata]
    simp only [spinIndexFC]
    simp [hF, hC, getBase, hl]
  · intro lv hlv hl
    simp only [spinIndex]
    rw [if_neg hlv]
    simp [getBase, hl]
  · intro nm lv ch rest _ hnS hlv hdata hFC hr0 hl
    simp only [spinIndex]
    rw [if_neg hlv, if_neg hnS, hdata]
    simp only [spinIndexFC]
    rw [if_pos hFC, if_neg hr0]
    simp [getBase, hl]
  · intro hl
    simp [chsqIndex, getBase, hl]

/-- Witness for the amended C3 over the empty table: an unknown code, an
unknown jump, an unknown plain spin, an unknown step sequence, an unknown
combination spin, and the missing `ChSq1`. -/
theorem C3_amended_witness :
    getBase emptySOV "XX" = .error ("Unknown element code: " ++ "XX") ∧
    getDelta emptySOV "XX" 2 = .error ("Unknown element code: " ++ "XX") ∧
    jumpIndex emptySOV "T" "2" = JSVal.undefined ∧
    spinIndex emptySOV "USp" "3" = JSVal.num 0 ∧
    spinIndex emptySOV "StSq" "3" = JSVal.num 0 ∧
    spinIndex emptySOV "CoSp" "C3" = JSVal.num 0 ∧
    chsqIndex emptySOV "1" = JSVal.num 3 := by
  have h := C3_amended_lookup_errors emptySOV "XX" rfl
  refine ⟨h.1, h.2.1 2 (by decide), ?_, ?_, ?_, ?_, h.2.2.2.2.2.2 rfl⟩
  · exact h.2.2.1 "T" "2" 2 (by decide) (by decide) (by decide) rfl
  · exact h.2.2.2.1 "USp" "3" '3' [] (by decide) (by decide) (by decide) rfl
      (by decide) (by decide) rfl
  · exact h.2.2.2.2.1 "3" (by decide) rfl
  · exact h.2.2.2.2.2.1 "CoSp" "C3" 'C' ['3'] (by decide) (by decide) (by decide)
      rfl (by decide) (by decide) rfl

lemma goeButton_bounds {g : ℤ} (hg : g ∈ goeButtonValues) : -5 ≤ g ∧ g ≤ 5 := by
  simp [goeButtonValues] at hg
  rcases hg with h | h | h | h | h | h | h | h | h | h | h <;> omega

lemma mem_updateHead {f : ElemPart → ElemPart} {l : List ElemPart} {p : ElemPart}
    (hp : p ∈ updateHead f l) : (∃ q ∈ l, p = f q) ∨ p ∈ l := by
  cases l with
  | nil => simp [updateHead] at hp
  | cons a as =>
    simp only [updateHead, List.mem_cons] at hp
    rcases hp with h | h
    · exact .inl ⟨a, by simp, h⟩
    · exact .inr (by simp [h])

/-- C7: every part record the entry operations ever create or store has its
GOE in `[-5, 5]`.  The invariant holds of the initial buffer and is
preserved by `setGOE` (whose input comes from the GOE buttons), `clearEntry`,
`addJump`, `addElement` and row editing. -/
theorem C7_goe_invariant (m : AppModel) (h : Reachable m) : modelGOEOK m := by
  induction h with
  | init =>
    constructor
    · intro p hp
      simp only [initModel, List.mem_singleton] at hp
      subst hp
      exact ⟨by decide, by decide⟩
    · intro row hrow
      simp [initModel] at hrow
  | @step m m' _ hs ih =>
    cases hs with
    | setGOE g hg =>
      refine ⟨?_, ih.2⟩
      intro p hp
      rcases mem_updateHead hp with ⟨q, _, rfl⟩ | hp'
      · exact goeButton_bounds hg
      · exact ih.1 p hp'
    | clearEntry =>
      refine ⟨?_, ih.2⟩
      intro p hp
      simp only [List.mem_singleton] at hp
      subst hp
      exact ⟨by decide, by decide⟩
    | addJump =>
      refine ⟨?_, ih.2⟩
      intro p hp
      rcases List.mem_append.mp hp with h' | h'
      · exact ih.1 p h'
      · simp only [List.mem_singleton] at h'
        subst h'
        exact ⟨by decide, by decide⟩
    | addElement =>
      constructor
      · intro p hp
        simp only [List.mem_singleton] at hp
        subst hp
        exact ⟨by decide, by decide⟩
      · intro row hrow
        rcases hei : m.editingIndex with _ | i <;> simp only [hei] at hrow
        · rcases List.mem_append.mp hrow with h' | h'
          · exact ih.2 row h'
          · simp only [List.mem_singleton] at h'
            subst h'
            exact ih.1
        · rcases List.mem_or_eq_of_mem_set hrow with h' | h'
          · exact ih.2 row h'
          · subst h'
            exact ih.1
    | editRow i hi =>
      refine ⟨?_, ih.2⟩
      intro p hp
      exact ih.2 _ (List.get_mem m.elements i hi) p hp

/-- Witness for C7 at the initial state. -/
theorem C7_witness : modelGOEOK initModel := C7_goe_invariant initModel Reachable.init

lemma ceLoop_cons_shape {sov : SOVData} {bonus0 : Bool} {p : ElemPart}
    {rest : List ElemPart} {s : JNum} {l : List JNum}
    (h : ceLoop sov bonus0 (p :: rest) = .ok (s, l)) :
    ∃ bv s' l', partBV sov p = .ok bv ∧ ceLoop sov bonus0 rest = .ok (s', l') ∧
      s = jadd (partBVForScore bonus0 p bv) s' ∧ l = partBVForGOE p bv :: l' := by
  unfold ceLoop at h
  cases hbv : partBV sov p with
  | error e => rw [hbv] at h; simp at h
  | ok bv =>
    rw [hbv] at h
    cases hrec : ceLoop sov bonus0 rest with
    | error e => rw [hrec] at h; simp at h
    | ok sl =>
      obtain ⟨s', l'⟩ := sl
      rw [hrec] at h
      simp only [Except.ok.injEq, Prod.mk.injEq] at h
      exact ⟨bv, s', l', rfl, rfl, h.1.symm, h.2.symm⟩

lemma jmaxList_isSome {l : List JNum} (hne : l ≠ []) (hnum : ∀ x ∈ l, x ≠ none) :
    ∃ m : ℚ, jmaxList l = some m := by
  induction l with
  | nil => exact absurd rfl hne
  | cons x xs ih =>
    cases xs with
    | nil =>
      cases hx : x with
      | none => exact absurd hx (hnum x (by simp))
      | some q => exact ⟨q, by simp [jmaxList, hx]⟩
    | cons y ys =>
      obtain ⟨m, hm⟩ := ih (by simp) (fun z hz => hnum z (by simp [hz]))
      cases hx : x with
      | none => exact absurd hx (hnum x (by simp))
      | some q =>
        refine ⟨max q m, ?_⟩
        show jmax (some q) (jmaxList (y :: ys)) = some (max q m)
        rw [hm]
        rfl

/-- C1 amended: when the first part's name is not `ChSq` (and every part's
GOE-side value is an actual number), the computed GOE value is the maximum
of the parts' rounded GOE-adjusted base values times `goe * 0.1`, rounded to
two decimals.  (When the first part is named `ChSq` the GOE value is
`goe * 0.5` instead — see the counterexample.) -/
theorem C1_amended_goe_formula (sov : SOVData) (p0 : ElemPart) (rest : List ElemPart)
    (r : CeResult) (s : JNum) (l : List JNum)
    (hname : p0.name ≠ some "ChSq")
    (hloop : ceLoop sov p0.bonus (p0 :: rest) = .ok (s, l))
    (hok : computeElementResult sov (p0 :: rest) = .ok r)
    (hnum : ∀ x ∈ l, x ≠ none) :
    r.goeValue = jround2 (jmul (jmaxList l) (some ((p0.goe : ℚ) * (1/10)))) := by
  simp only [computeElementResult] at hok
  rw [hloop] at hok
  simp only [Except.ok.injEq] at hok
  subst hok
  simp only [if_neg hname]
  by_cases hg : p0.goe = 0
  · obtain ⟨bv, s', l', _, _, _, hl⟩ := ceLoop_cons_shape hloop
    obtain ⟨m, hm⟩ := jmaxList_isSome (by rw [hl]; exact List.cons_ne_nil _ _) hnum
    simp [hg, hm, jmul, jround2]
  · simp [hg]

def c1Part : ElemPart :=
  { initialPart with type := some "seq", name := some "ChSq", lod := "1", goe := 1 }

/-- Counterexample to C1 as stated: for an entry whose first part is the
choreographic sequence `ChSq` (level 1, GOE `+1`, base value `3.0`), the
computed GOE value is `goe * 0.5 = 0.5`, while the claimed formula
`max(rounded adjusted base values) * goe * 0.1` gives `0.3` — so the formula
does not hold "whatever the element name of the first part". -/
theorem C1_counterexample :
    (computeElementResult wSov [c1Part]).map CeResult.goeValue = .ok (some (1/2)) ∧
    ceLoop wSov c1Part.bonus [c1Part] = .ok (some 3, [some 3]) ∧
    jround2 (jmul (jmaxList [some 3]) (some ((c1Part.goe : ℚ) * (1/10)))) = some (3/10) ∧
    ((some (1/2) : JNum) ≠ some (3/10)) := by
  have hidx : basevaluesIndex wSov (some "ChSq") "1" = .ok (JSVal.num 3) := by rfl
  have hbv : partBV wSov c1Part = .ok (some 3) := by
    simp only [partBV, c1Part, initialPart]
    norm_num [hidx, Except.map, JSVal.toJNum]
  have hloop : ceLoop wSov c1Part.bonus [c1Part] = .ok (some 3, [some 3]) := by
    simp only [ceLoop, hbv]
    norm_num [partBVForScore, partBVForGOE, c1Part, initialPart, jadd, jround2,
      round2, jsRound]
  have hcomp : computeElementResult wSov [c1Part] =
      .ok ⟨some 3, 1, some (1/2), some (7/2)⟩ := by
    simp only [computeElementResult, hloop]
    norm_num [c1Part, initialPart, jround2, jadd, round2, jsRound]
  refine ⟨?_, hloop, ?_, by norm_num⟩
  · rw [hcomp]
    rfl
  · norm_num [jround2, jmul, jmaxList, c1Part, initialPart, round2, jsRound]

def c1wPart : ElemPart :=
  { initialPart with type := some "jump", name := some "T", lod := "2", goe := 2 }

/-- Witness for the amended C1: a double toe loop with GOE `+2` over `wSov`;
the GOE value `0.26` equals `max [1.30] * 0.2` rounded. -/
theorem C1_witness :
    CeResult.goeValue ⟨some (13/10), 2, some (13/50), some (39/25)⟩ =
      jround2 (jmul (jmaxList [some (13/10)]) (some ((c1wPart.goe : ℚ) * (1/10)))) := by
  have hbv : partBV wSov c1wPart = .ok (some (13/10)) := by rfl
  have hloop : ceLoop wSov c1wPart.bonus [c1wPart] = .ok (some (13/10), [some (13/10)]) := by
    simp only [ceLoop, hbv]
    norm_num [partBVForScore, partBVForGOE, c1wPart, initialPart, jadd, jround2,
      round2, jsRound]
  have hT : ¬(("T" : String) = "ChSq") := by decide
  have hok : computeElementResult wSov [c1wPart] =
      .ok ⟨some (13/10), 2, some (13/50), some (39/25)⟩ := by
    simp only [computeElementResult, hloop]
    norm_num [c1wPart, initialPart, jround2, jmul, jadd, jmaxList, round2, jsRound, hT]
  exact C1_amended_goe_formula wSov c1wPart [] _ _ _
    (by decide) hloop hok (by simp)

/-- C2 amended: bonus, repetition, under-rotation, edge and spin-V are
percentage multipliers on the part's looked-up base value (bonus `×1.1`,
repetition `×0.7`, under-rotation and edge together `×0.6`, spin-V `×0.75`,
under-rotation or edge alone `×0.8`); the downgrade modifier on a jump is
*not* a multiplier — with `dg` set and a parseable nonzero rotation `n` the
base value is the adapter entry for rotation `n - 1`, i.e. downgrade changes
which table entry is looked up. -/
theorem C2_amended_modifiers (sov : SOVData) (p : ElemPart) (bonus0 : Bool) (b : ℚ) :
    partBVForScore bonus0 p (some b) =
      some (b * (if bonus0 then 11/10 else 1) * (if p.rep then 7/10 else 1) *
        (if p.ur && p.edge then 3/5
         else if p.spinV then 3/4
         else if p.ur || p.edge then 4/5 else 1)) ∧
    (p.invalid = false → p.type = some "jump" → p.dg = true →
      ∀ n : ℤ, jsParseInt p.lod = some n → n ≠ 0 →
      partBV sov p = (basevaluesIndex sov p.name (toString (n - 1))).map JSVal.toJNum) := by
  constructor
  · unfold partBVForScore
    cases bonus0 <;> cases hr : p.rep <;> cases hu : p.ur <;> cases he : p.edge <;>
      cases hs : p.spinV <;> simp [jmul]
  · intro hinv htype hdg n hn hn0
    unfold partBV
    simp [hinv, htype, hdg, hn, hn0]

def c2SovA : SOVData := ⟨[("1T", ⟨2/5, []⟩), ("2T", ⟨13/10, []⟩)]⟩

def c2SovB : SOVData := ⟨[("1T", ⟨2/5, []⟩), ("2T", ⟨999, []⟩)]⟩

def c2Part : ElemPart :=
  { initialPart with type := some "jump", name := some "T", lod := "2", dg := true }

/-- Counterexample to C2 as stated: the downgraded double toe loop's base
value is `getBase "1T" = 0.4` under two tables that agree on `1T` but give
`2T` the bases `1.3` and `999` — the result does not change with the `2T`
base, so no single percentage multiplier `m` on the looked-up `2T` base
value can produce it. -/
theorem C2_counterexample :
    partBV c2SovA c2Part = .ok (some (2/5)) ∧
    partBV c2SovB c2Part = .ok (some (2/5)) ∧
    getBase c2SovA "2T" = .ok (13/10) ∧
    getBase c2SovB "2T" = .ok 999 ∧
    ¬ ∃ m : ℚ, partBV c2SovA c2Part = .ok (some ((13/10) * m)) ∧
               partBV c2SovB c2Part = .ok (some (999 * m)) := by
  have hA : partBV c2SovA c2Part = .ok (some (2/5)) := by rfl
  have hB : partBV c2SovB c2Part = .ok (some (2/5)) := by rfl
  refine ⟨hA, hB, by rfl, by rfl, ?_⟩
  rintro ⟨m, h1, h2⟩
  rw [hA] at h1
  rw [hB] at h2
  simp only [Except.ok.injEq, Option.some.injEq] at h1 h2
  linarith [h1, h2]

/-- Witness for the amended C2: the downgraded double toe loop over `wSov`
resolves through the adapter entry for rotation `1`. -/
theorem C2_witness :
    partBV wSov c2Part =
      (basevaluesIndex wSov c2Part.name (toString ((2:ℤ) - 1))).map JSVal.toJNum :=
  (C2_amended_modifiers wSov c2Part true 2).2 rfl rfl rfl 2 (by decide) (by decide)

lemma jadd_some_zero (a : JNum) : jadd a (some 0) = a := by
  cases a <;> simp [jadd]

lemma jadd_zero_some (a : JNum) : jadd (some 0) a = a := by
  cases a <;> simp [jadd]

lemma jadd_assoc (a b c : JNum) : jadd (jadd a b) c = jadd a (jadd b c) := by
  cases a <;> cases b <;> cases c <;> simp [jadd, add_assoc]

/-- The sum of the parts' stored score-side base values, as `appendToTable`
accumulates it (associated to the right; `jadd` is associative). -/
def sumFSC (ps : List ElemPart) : JNum :=
  ps.foldr (fun p acc => jadd p.bvForScoreCalculation acc) (some 0)

lemma foldl_jadd_eq_sumFSC (ps : List ElemPart) (a : JNum) :
    ps.foldl (fun acc p => jadd acc p.bvForScoreCalculation) a = jadd a (sumFSC ps) := by
  induction ps generalizing a with
  | nil => simp [sumFSC, jadd_some_zero]
  | cons p rest ih =>
    simp only [List.foldl_cons, ih, sumFSC, List.foldr_cons, jadd_assoc]

lemma ceLoop_of_cbLoop {sov : SOVData} {bonus0 : Bool} {parts : List ElemPart}
    {ps : List ElemPart} {l : List JNum} {ch : Bool}
    (h : cbLoop sov bonus0 parts = .ok (ps, l, ch)) :
    ceLoop sov bonus0 parts = .ok (sumFSC ps, l) := by
  induction parts generalizing ps l ch with
  | nil =>
    unfold cbLoop at h
    simp only [Except.ok.injEq, Prod.mk.injEq] at h
    obtain ⟨h1, h2, _⟩ := h
    subst h1; subst h2
    rfl
  | cons p rest ih =>
    unfold cbLoop at h
    cases hbv : partBV sov p with
    | error e => rw [hbv] at h; simp at h
    | ok bv =>
      rw [hbv] at h
      cases hrec : cbLoop sov bonus0 rest with
      | error e => rw [hrec] at h; simp at h
      | ok t =>
        obtain ⟨ps', l', ch'⟩ := t
        rw [hrec] at h
        simp only [Except.ok.injEq, Prod.mk.injEq] at h
        obtain ⟨hps, hl, _⟩ := h
        have hce := ih hrec
        unfold ceLoop
        rw [hbv, hce]
        subst hps; subst hl
        simp [sumFSC]

lemma ceLoop_error_of_cbLoop {sov : SOVData} {bonus0 : Bool} {parts : List ElemPart}
    {e : String} (h : cbLoop sov bonus0 parts = .error e) :
    ceLoop sov bonus0 parts = .error e := by
  induction parts with
  | nil => unfold cbLoop at h; simp at h
  | cons p rest ih =>
    unfold cbLoop at h
    cases hbv : partBV sov p with
    | error e' =>
      rw [hbv] at h
      simp only [Except.error.injEq] at h
      subst h
      unfold ceLoop
      rw [hbv]
    | ok bv =>
      rw [hbv] at h
      cases hrec : cbLoop sov bonus0 rest with
      | error e' =>
        rw [hrec] at h
        simp only [Except.error.injEq] at h
        subst h
        unfold ceLoop
        rw [hbv, ih hrec]
      | ok t =>
        obtain ⟨ps', l', ch'⟩ := t
        rw [hrec] at h
        simp at h

lemma cbLoop_cons_shape {sov : SOVData} {bonus0 : Bool} {p : ElemPart}
    {rest : List ElemPart} {ps : List ElemPart} {l : List JNum} {ch : Bool}
    (h : cbLoop sov bonus0 (p :: rest) = .ok (ps, l, ch)) :
    ∃ bv ps' l' ch', partBV sov p = .ok bv ∧
      cbLoop sov bonus0 rest = .ok (ps', l', ch') ∧
      ps = { p with bv := bv,
                    bvForScoreCalculation := partBVForScore bonus0 p bv,
                    bvForGOECalculation := partBVForGOE p bv } :: ps' ∧
      l = partBVForGOE p bv :: l' ∧
      ch = (if p.name = some "ChSq" then true else ch') := by
  unfold cbLoop at h
  cases hbv : partBV sov p with
  | error e => rw [hbv] at h; simp at h
  | ok bv =>
    rw [hbv] at h
    cases hrec : cbLoop sov bonus0 rest with
    | error e => rw [hrec] at h; simp at h
    | ok t =>
      obtain ⟨ps', l', ch'⟩ := t
      rw [hrec] at h
      simp only [Except.ok.injEq, Prod.mk.injEq] at h
      exact ⟨bv, ps', l', ch', rfl, rfl, h.1.symm, h.2.1.symm, h.2.2.symm⟩

/-- All base values of the loaded table are nonnegative (true of the real
SOV rulebook values). -/
def sovNonneg (sov : SOVData) : Prop := ∀ pr ∈ sov.elements, 0 ≤ pr.2.base

lemma lookupEntry_mem {l : List (String × SOVEntry)} {c : String} {e : SOVEntry}
    (h : lookupEntry l c = some e) : ∃ k, (k, e) ∈ l := by
  induction l with
  | nil => simp [lookupEntry] at h
  | cons kv rest ih =>
    obtain ⟨k, v⟩ := kv
    unfold lookupEntry at h
    by_cases hk : k = c
    · rw [if_pos hk] at h
      cases h
      exact ⟨k, by simp⟩
    · rw [if_neg hk] at h
      obtain ⟨k', hm⟩ := ih h
      exact ⟨k', by simp [hm]⟩

lemma getBase_nonneg {sov : SOVData} {c : String} {b : ℚ}
    (hnn : sovNonneg sov) (h : getBase sov c = .ok b) : 0 ≤ b := by
  unfold getBase at h
  cases hl : lookupEntry sov.elements c with
  | none => rw [hl] at h; simp at h
  | some e =>
    rw [hl] at h
    simp only [Except.ok.injEq] at h
    subst h
    obtain ⟨k, hk⟩ := lookupEntry_mem hl
    exact hnn (k, e) hk

/-- Either `NaN`/`undefined` or a nonnegative number. -/
def nonnegJ (v : JNum) : Prop := v = none ∨ ∃ q, v = some q ∧ 0 ≤ q

lemma jsval_nonneg_of_index {sov : SOVData} {name : Option String} {idx : String}
    {jv : JSVal} (hnn : sovNonneg sov) (h : basevaluesIndex sov name idx = .ok jv) :
    nonnegJ jv.toJNum := by
  cases name with
  | none => simp [basevaluesIndex] at h
  | some nm =>
    simp only [basevaluesIndex] at h
    by_cases hj : nm ∈ jumpNames
    · rw [if_pos hj] at h
      simp only [Except.ok.injEq] at h
      subst h
      unfold jumpIndex
      cases jsParseInt idx with
      | none => exact .inl rfl
      | some r =>
        by_cases hr : r < 0
        · simp [hr]
          exact .inl rfl
        · by_cases hr0 : r = 0
          · simp [hr, hr0]
            exact .inr ⟨0, rfl, le_refl 0⟩
          · simp only [hr, hr0, if_false]
            cases hgb : getBase sov (toString r ++ nm) with
            | ok b => exact .inr ⟨b, rfl, getBase_nonneg hnn hgb⟩
            | error e => exact .inl rfl
    · rw [if_neg hj] at h
      by_cases hc : nm = "ChSq"
      · rw [if_pos hc] at h
        simp only [Except.ok.injEq] at h
        subst h
        unfold chsqIndex
        by_cases h0 : idx = "0"
        · simp [h0]
          exact .inr ⟨0, rfl, le_refl 0⟩
        · by_cases h1 : idx = "1"
          · simp only [h0, h1, if_false, if_true]
            cases hgb : getBase sov "ChSq1" with
            | ok b => exact .inr ⟨b, rfl, getBase_nonneg hnn hgb⟩
            | error e => exact .inr ⟨3, rfl, by norm_num⟩
          · simp [h0, h1]
            exact .inl rfl
      · rw [if_neg hc] at h
        by_cases hs : nm ∈ spinNames
        · rw [if_pos hs] at h
          simp only [Except.ok.injEq] at h
          subst h
          unfold spinIndex
          by_cases h0 : idx = "0"
          · simp [h0]
            exact .inr ⟨0, rfl, le_refl 0⟩
          · rw [if_neg h0]
            by_cases hst : nm = "StSq"
            · rw [if_pos hst]
              cases hgb : getBase sov (nm ++ idx) with
              | ok b => exact .inr ⟨b, rfl, getBase_nonneg hnn hgb⟩
              | error e => exact .inr ⟨0, rfl, le_refl 0⟩
            · rw [if_neg hst]
              cases hd : idx.data with
              | nil =>
                simp only [spinIndexFC]
                cases hgb : getBase sov (nm ++ idx) with
                | ok b => exact .inr ⟨b, rfl, getBase_nonneg hnn hgb⟩
                | error e => exact .inr ⟨0, rfl, le_refl 0⟩
              | cons ch rest =>
                simp only [spinIndexFC]
                by_cases hfc : ch = 'F' ∨ ch = 'C'
                · rw [if_pos hfc]
                  by_cases hz : rest = ['0']
                  · simp [hz]
                    exact .inr ⟨0, rfl, le_refl 0⟩
                  · rw [if_neg hz]
                    cases hgb : getBase sov (String.mk [ch] ++ nm ++ String.mk rest) with
                    | ok b => exact .inr ⟨b, rfl, getBase_nonneg hnn hgb⟩
                    | error e => exact .inr ⟨0, rfl, le_refl 0⟩
                · rw [if_neg hfc]
                  cases hgb : getBase sov (nm ++ idx) with
                  | ok b => exact .inr ⟨b, rfl, getBase_nonneg hnn hgb⟩
                  | error e => exact .inr ⟨0, rfl, le_refl 0⟩
        · simp [hs] at h

lemma jmul_none_left (x : JNum) : jmul none x = none := by cases x <;> rfl

lemma jmul_none_right (x : JNum) : jmul x none = none := by cases x <;> rfl

lemma round2_nonneg {q : ℚ} (h : 0 ≤ q) : 0 ≤ round2 q := by
  unfold round2 jsRound
  apply div_nonneg _ (by norm_num)
  have h2 : (0 : ℤ) ≤ Int.floor (q * 100 + 1/2) := by
    rw [Int.floor_nonneg]
    nlinarith
  exact_mod_cast h2

lemma partBVForGOE_nonneg {p : ElemPart} {bv : JNum} (hbv : nonnegJ bv) :
    nonnegJ (partBVForGOE p bv) := by
  rcases hbv with rfl | ⟨q, rfl, hq⟩
  · left
    unfold partBVForGOE
    split_ifs <;> simp [jmul_none_left, jround2]
  · unfold partBVForGOE
    split_ifs
    · exact .inr ⟨round2 (q * (3/5)), rfl, round2_nonneg (mul_nonneg hq (by norm_num))⟩
    · exact .inr ⟨round2 (q * (3/4)), rfl, round2_nonneg (mul_nonneg hq (by norm_num))⟩
    · exact .inr ⟨round2 (q * (4/5)), rfl, round2_nonneg (mul_nonneg hq (by norm_num))⟩
    · exact .inr ⟨round2 q, rfl, round2_nonneg hq⟩
    · exact .inr ⟨round2 q, rfl, round2_nonneg hq⟩

lemma nonnegJ_of_map_index {sov : SOVData} {name : Option String} {idx : String}
    {v : JNum} (hnn : sovNonneg sov)
    (h : (basevaluesIndex sov name idx).map JSVal.toJNum = .ok v) : nonnegJ v := by
  cases hbi : basevaluesIndex sov name idx with
  | error e => rw [hbi] at h; simp [Except.map] at h
  | ok jv =>
    rw [hbi] at h
    simp only [Except.map, Except.ok.injEq] at h
    subst h
    exact jsval_nonneg_of_index hnn hbi

lemma partBV_nonneg {sov : SOVData} {p : ElemPart} {v : JNum}
    (hnn : sovNonneg sov) (h : partBV sov p = .ok v) : nonnegJ v := by
  unfold partBV at h
  split_ifs at h
  · simp only [Except.ok.injEq] at h
    exact .inr ⟨0, h.symm, le_refl 0⟩
  all_goals exact nonnegJ_of_map_index hnn h

lemma cbLoop_goeList_nonneg {sov : SOVData} {bonus0 : Bool} {parts ps : List ElemPart}
    {l : List JNum} {ch : Bool} (hnn : sovNonneg sov)
    (h : cbLoop sov bonus0 parts = .ok (ps, l, ch)) :
    ∀ x ∈ l, nonnegJ x := by
  induction parts generalizing ps l ch with
  | nil =>
    unfold cbLoop at h
    simp only [Except.ok.injEq, Prod.mk.injEq] at h
    obtain ⟨_, h2, _⟩ := h
    subst h2
    simp
  | cons p rest ih =>
    obtain ⟨bv, ps', l', ch', hbv, hrec, _, hl, _⟩ := cbLoop_cons_shape h
    subst hl
    intro x hx
    rcases List.mem_cons.mp hx with rfl | hx'
    · exact partBVForGOE_nonneg (partBV_nonneg hnn hbv)
    · exact ih hrec x hx'

lemma jmaxList_nonneg {l : List JNum} (hl : ∀ x ∈ l, nonnegJ x) :
    nonnegJ (jmaxList l) := by
  induction l with
  | nil => exact .inl rfl
  | cons x xs ih =>
    cases xs with
    | nil => exact hl x (by simp)
    | cons y ys =>
      have hx := hl x (by simp)
      have hrest := ih (fun z hz => hl z (by simp [hz]))
      show nonnegJ (jmax x (jmaxList (y :: ys)))
      rcases hx with rfl | ⟨q, rfl, hq⟩
      · left
        cases jmaxList (y :: ys) <;> rfl
      · rcases hrest with hnone | ⟨m, hm, hm0⟩
        · left
          rw [hnone]
          rfl
        · right
          rw [hm]
          exact ⟨max q m, rfl, le_trans hq (le_max_left q m)⟩

lemma jmaxList_zero_cons {l : List JNum} (hne : l ≠ []) (hl : ∀ x ∈ l, nonnegJ x) :
    jmaxList (some 0 :: l) = jmaxList l := by
  have h1 : jmaxList (some 0 :: l) = jmax (some 0) (jmaxList l) := by
    cases l with
    | nil => exact absurd rfl hne
    | cons y ys => rfl
  rw [h1]
  rcases jmaxList_nonneg hl with hnone | ⟨m, hm, hm0⟩
  · rw [hnone]
    rfl
  · rw [hm]
    show some (max 0 m) = some m
    rw [max_eq_right hm0]

lemma round2_int_div_hundred (n : ℤ) : round2 ((n : ℚ) / 100) = (n : ℚ) / 100 := by
  unfold round2 jsRound
  have h : ((n : ℚ) / 100 * 100) = (n : ℚ) := by field_simp
  rw [h]
  have h2 : Int.floor ((n : ℚ) + 1/2) = n := by
    rw [add_comm, Int.floor_add_int]
    norm_num
  rw [h2]

lemma round2_idem (q : ℚ) : round2 (round2 q) = round2 q := by
  show round2 ((((jsRound (q * 100)) : ℤ) : ℚ) / 100) = _
  rw [round2_int_div_hundred]
  rfl

lemma jround2_idem (x : JNum) : jround2 (jround2 x) = jround2 x := by
  cases x <;> simp [jround2, round2_idem]

lemma round2_int_half (g : ℤ) : round2 ((g : ℚ) * (1/2)) = (g : ℚ) * (1/2) := by
  have h : ((g : ℚ) * (1/2)) = ((50 * g : ℤ) : ℚ) / 100 := by push_cast; ring
  rw [h, round2_int_div_hundred]

lemma appendToTableRow_cons (q : ElemPart) (qs : List ElemPart) :
    appendToTableRow (q :: qs) =
      .ok { totalBV := jround2 (jadd q.bvForScoreCalculation (sumFSC qs)),
            goe := q.goe,
            goeValue := jround2 q.goeValue,
            totalScore :=
              jround2 (jadd (jadd q.bvForScoreCalculation (sumFSC qs)) q.goeValue) } := by
  simp only [appendToTableRow, List.foldl_cons, foldl_jadd_eq_sumFSC, jadd_zero_some]

/-- C4 amended: over a table with nonnegative base values, and for an entry
list whose first part carries a cleared `goeValue` field (`0.0`, as in a
freshly initialised buffer), the mutating pipeline — `calculateBuffer`
followed by the `appendToTable` row totals — agrees exactly with the
non-mutating `computeElementResult` on total base value, GOE, GOE value and
element score (and both throw the same error when a lookup throws).  The
cleared-`goeValue` hypothesis is necessary: with `goe = 0` the pipeline
reuses whatever stale `goeValue` the first part carries (see the
counterexample). -/
theorem C4_amended_pipeline_equiv (sov : SOVData) (p0 : ElemPart) (rest : List ElemPart)
    (hgv : p0.goeValue = some 0) (hnn : sovNonneg sov) :
    calculateThenAppend sov (p0 :: rest) = computeElementResult sov (p0 :: rest) := by
  unfold calculateThenAppend
  cases hcb : cbLoop sov p0.bonus (p0 :: rest) with
  | error e =>
    have hce := ceLoop_error_of_cbLoop hcb
    simp only [calculateBuffer, computeElementResult, hcb, hce]
  | ok t =>
    obtain ⟨ps, l, ch⟩ := t
    have hce := ceLoop_of_cbLoop hcb
    have hlnn : ∀ x ∈ l, nonnegJ x := cbLoop_goeList_nonneg hnn hcb
    obtain ⟨bv, ps', l', ch', hbv, hrec, hps, hl, hch⟩ := cbLoop_cons_shape hcb
    have hlne : l ≠ [] := by rw [hl]; exact List.cons_ne_nil _ _
    have key : (if p0.name ≠ some "ChSq" then
          jround2 (if p0.goe ≠ 0 then
              jmul (jmaxList (some 0 :: l)) (some ((p0.goe : ℚ) * (1/10)))
            else if ch then some ((p0.goe : ℚ) * (1/2)) else p0.goeValue)
        else if ch then some ((p0.goe : ℚ) * (1/2)) else p0.goeValue) =
        jround2 (if p0.name = some "ChSq" then some ((p0.goe : ℚ) * (1/2))
          else if p0.goe ≠ 0 then jmul (jmaxList l) (some ((p0.goe : ℚ) * (1/10)))
          else some 0) := by
      by_cases hn : p0.name = some "ChSq"
      · have hch' : ch = true := by rw [hch, if_pos hn]
        simp only [hn, hch', ne_eq, not_true_eq_false, if_false, if_true, jround2]
        rw [round2_int_half]
      · by_cases hg : p0.goe = 0
        · have hzero : ((p0.goe : ℚ) * (1/2)) = 0 := by rw [hg]; norm_num
          simp only [ne_eq, hn, not_false_eq_true, if_true, hg, not_true_eq_false,
            if_false, hzero, hgv]
          cases ch <;> simp [jround2]
        · simp only [ne_eq, hn, not_false_eq_true, if_true, hg, if_false,
            jmaxList_zero_cons hlne hlnn]
    simp only [calculateBuffer, computeElementResult, hcb, hce]
    subst hps
    simp only [updateHead, appendToTableRow_cons]
    rw [key]
    simp only [jround2_idem]
    rfl

def c4Part : ElemPart :=
  { initialPart with
    type := some "jump", name := some "T", lod := "1",
    invalid := true, goeValue := some 5 }

/-- Counterexample to C4 as stated: on a single invalid part with GOE `0`
whose `goeValue` field holds a stale `5.0`, the pipeline keeps (and re-rounds)
the stale `goeValue` — row `(0, 0, 5, 5)` — while `computeElementResult`
recomputes it as `0` — row `(0, 0, 0, 0)`. -/
theorem C4_counterexample :
    calculateThenAppend wSov [c4Part] = .ok ⟨some 0, 0, some 5, some 5⟩ ∧
    computeElementResult wSov [c4Part] = .ok ⟨some 0, 0, some 0, some 0⟩ ∧
    ((⟨some 0, 0, some 5, some 5⟩ : CeResult) ≠ ⟨some 0, 0, some 0, some 0⟩) := by
  have hbv : partBV wSov c4Part = .ok (some 0) := by rfl
  have hT : ¬(("T" : String) = "ChSq") := by decide
  refine ⟨?_, ?_, by norm_num [CeResult.mk.injEq]⟩
  · simp only [calculateThenAppend, calculateBuffer, cbLoop, hbv]
    norm_num [partBVForScore, partBVForGOE, c4Part, initialPart, updateHead,
      appendToTableRow, jadd, jmul, jround2, jmaxList, round2, jsRound, hT, sumFSC]
  · simp only [computeElementResult, ceLoop, hbv]
    norm_num [partBVForScore, partBVForGOE, c4Part, initialPart, jadd, jmul,
      jround2, jmaxList, round2, jsRound, hT]

/-- Witness for the amended C4: a double toe loop with GOE `+2` and a fresh
`goeValue` field; the pipeline and the pure function agree. -/
theorem C4_witness :
    calculateThenAppend wSov [c1wPart] = computeElementResult wSov [c1wPart] := by
  apply C4_amended_pipeline_equiv wSov c1wPart [] rfl
  intro pr hpr
  simp [wSov] at hpr
  rcases hpr with rfl | rfl | rfl | rfl | rfl <;> norm_num
